import Mathlib

/-!
Shallow embedding of the document-management backend's ingestion core:
the document and ingestion-job records, the `DocumentsService` and
`IngestionService` operations (including the simulated processor's two
timer callbacks and the webhook entry point), and the `UsersService.remove`
operation. Each operation threads the record store explicitly, so writes
performed before an exception is thrown remain visible in the resulting
store, exactly as the persisted rows would.
-/

/-- Role of an authenticated user (`UserRole` enum in the source). -/
inductive UserRole
  | admin
  | editor
  | viewer
  deriving DecidableEq, Repr

/-- The authenticated actor; only the fields the services consult. -/
structure User where
  id : Nat
  role : UserRole
  deriving DecidableEq, Repr

/-- Document status (`DocumentStatus` enum in the source). -/
inductive DocumentStatus
  | uploaded
  | processing
  | processed
  | failed
  deriving DecidableEq, Repr

/-- A document record; only the fields the ingestion core reads or writes. -/
structure Document where
  id : Nat
  status : DocumentStatus
  uploadedById : Nat
  deriving DecidableEq, Repr

/-- Ingestion-job status (`IngestionStatus` enum in the source). -/
inductive IngestionStatus
  | pending
  | running
  | completed
  | failed
  | cancelled
  deriving DecidableEq, Repr

/-- The free-form result payload; mirrors the canned payload's shape. -/
structure ResultPayload where
  extractedText : String
  summary : String
  language : String
  wordCount : Nat
  deriving DecidableEq, Repr

/-- An ingestion-job record (`IngestionJob` entity). Timestamps are
modelled as natural-number instants; nullable columns as `Option`. -/
structure IngestionJob where
  id : Nat
  documentId : Nat
  status : IngestionStatus
  errorMessage : Option String
  result : Option ResultPayload
  config : List (String × String)
  startedAt : Option Nat
  completedAt : Option Nat
  deriving DecidableEq, Repr

/-- The record store: the documents and ingestion-jobs tables. -/
structure Db where
  documents : List Document
  ingestionJobs : List IngestionJob
  deriving DecidableEq, Repr

/-- Error taxonomy of the services: `NotFoundException`,
`ForbiddenException`, `BadRequestException`; `internal` stands for a
runtime null-dereference (no such exception is thrown on any path the
theorems below exercise). -/
inductive Err
  | notFound
  | forbidden
  | badRequest
  | internal
  deriving DecidableEq, Repr

/-- Repository `save`: replace the rows with the record's id, or insert
the record at the end when no row has that id. -/
def upsertBy (key : α → Nat) (l : List α) (a : α) : List α :=
  if (l.find? (fun x => key x == key a)).isSome then
    l.map (fun x => if key x == key a then a else x)
  else
    l ++ [a]

theorem find?_replaceBy_of_isSome (key : α → Nat) (a : α) :
    ∀ l : List α, (l.find? (fun x => key x == key a)).isSome →
      (l.map (fun x => if key x == key a then a else x)).find?
        (fun x => key x == key a) = some a := by
  intro l
  induction l with
  | nil => simp
  | cons b t ih =>
    intro h
    by_cases hb : (key b == key a) = true
    · have hhead : (if (key b == key a) = true then a else b) = a := by simp [hb]
      simp only [List.map_cons, hhead]
      rw [List.find?_cons_of_pos _ (by simp)]
    · rw [List.find?_cons_of_neg _ (by simp [hb])] at h
      simp only [List.map_cons, hb, if_false]
      rw [List.find?_cons_of_neg _ (by simp [hb])]
      exact ih h

theorem find?_replaceBy_ne (key : α → Nat) (a : α) (k : Nat) (hk : key a ≠ k) :
    ∀ l : List α,
      (l.map (fun x => if key x == key a then a else x)).find?
        (fun x => key x == k) = l.find? (fun x => key x == k) := by
  intro l
  have hak : (key a == k) = false := by simp [hk]
  induction l with
  | nil => simp
  | cons b t ih =>
    by_cases hb : (key b == key a) = true
    · have hbk : (key b == k) = false := by
        simp only [beq_iff_eq] at hb hak ⊢
        simp [hb, hk]
      simp only [List.map_cons, hb, if_true]
      rw [List.find?_cons_of_neg _ (by simp [hak]),
        List.find?_cons_of_neg _ (by simp [hbk])]
      exact ih
    · simp only [List.map_cons, hb, if_false]
      by_cases hbk : (key b == k) = true
      · rw [List.find?_cons_of_pos _ (by simp [hbk]),
          List.find?_cons_of_pos _ (by simp [hbk])]
        simp [hb]
      · rw [List.find?_cons_of_neg _ (by simp [hbk]),
          List.find?_cons_of_neg _ (by simp [hbk])]
        exact ih

theorem find?_upsertBy_self (key : α → Nat) (l : List α) (a : α) :
    (upsertBy key l a).find? (fun x => key x == key a) = some a := by
  unfold upsertBy
  by_cases h : (l.find? (fun x => key x == key a)).isSome
  · rw [if_pos h]
    exact find?_replaceBy_of_isSome key a l h
  · rw [if_neg h, List.find?_append, Option.not_isSome_iff_eq_none.mp h]
    simp

theorem find?_upsertBy_ne (key : α → Nat) (l : List α) (a : α) (k : Nat)
    (hk : key a ≠ k) :
    (upsertBy key l a).find? (fun x => key x == k) = l.find? (fun x => key x == k) := by
  unfold upsertBy
  by_cases h : (l.find? (fun x => key x == key a)).isSome
  · rw [if_pos h]
    exact find?_replaceBy_ne key a k hk l
  · rw [if_neg h, List.find?_append]
    have hak : (key a == k) = false := by simp [hk]
    simp [hak]

/-- Lookup of a document row by id (`documentsRepository.findOne`). -/
def findDocRow (db : Db) (id : Nat) : Option Document :=
  db.documents.find? (fun d => d.id == id)

/-- Lookup of an ingestion-job row by id (`ingestionJobsRepository.findOne`). -/
def findJobRow (db : Db) (id : Nat) : Option IngestionJob :=
  db.ingestionJobs.find? (fun j => j.id == id)

/-- Repository `save` on the documents table. -/
def saveDocRow (db : Db) (d : Document) : Db :=
  { db with documents := upsertBy Document.id db.documents d }

/-- Repository `save` on the ingestion-jobs table. -/
def saveJobRow (db : Db) (j : IngestionJob) : Db :=
  { db with ingestionJobs := upsertBy IngestionJob.id db.ingestionJobs j }

namespace DocumentsService

/-- Embedding of `DocumentsService.findOne`: `NotFoundException` when the
id does not resolve, `ForbiddenException` when the actor is neither admin
nor the uploader, the document otherwise. Read-only. -/
def findOne (db : Db) (id : Nat) (user : User) : Except Err Document :=
  match findDocRow db id with
  | none => .error .notFound
  | some document =>
    if user.role ≠ .admin ∧ document.uploadedById ≠ user.id then
      .error .forbidden
    else
      .ok document

/-- Embedding of `DocumentsService.updateStatus`: admin-only, then lookup,
then the status write. The store is returned alongside the outcome. -/
def updateStatus (db : Db) (id : Nat) (status : DocumentStatus) (user : User) :
    Except Err Document × Db :=
  if user.role ≠ .admin then
    (.error .forbidden, db)
  else
    match findDocRow db id with
    | none => (.error .notFound, db)
    | some document =>
      let updated := { document with status := status }
      (.ok updated, saveDocRow db updated)

end DocumentsService

/-- Payload of `POST /ingestion/jobs` (`CreateIngestionJobDto`). -/
structure CreateIngestionJobDto where
  documentId : Nat
  config : Option (List (String × String))
  deriving DecidableEq, Repr

/-- Payload of job update and webhook calls (`UpdateIngestionJobDto`);
`none` stands for a field absent from the request body. -/
structure UpdateIngestionJobDto where
  status : Option IngestionStatus
  errorMessage : Option String
  result : Option ResultPayload
  deriving DecidableEq, Repr

/-- The `Object.assign(job, updateDto)` merge: each field present in the
payload overwrites the job's field; absent fields are left alone. -/
def assignDto (job : IngestionJob) (dto : UpdateIngestionJobDto) : IngestionJob :=
  { job with
    status := dto.status.getD job.status
    errorMessage := match dto.errorMessage with
      | some e => some e
      | none => job.errorMessage
    result := match dto.result with
      | some r => some r
      | none => job.result }

/-- The terminal statuses checked by the update and webhook paths. -/
def isTerminal (s : IngestionStatus) : Bool :=
  s == .completed || s == .failed || s == .cancelled

/-- The field-merge and timestamp logic shared by the update and webhook
paths: the dto merge, then `startedAt := now` when the payload moves the
job to `running` and `startedAt` is unset, then `completedAt := now` when
the payload carries a terminal status and `completedAt` is unset. -/
def mergeJobUpdate (job : IngestionJob) (dto : UpdateIngestionJobDto)
    (now : Nat) : IngestionJob :=
  let job1 := assignDto job dto
  let job2 :=
    if dto.status = some .running ∧ job1.startedAt = none then
      { job1 with startedAt := some now }
    else job1
  match dto.status with
  | some s =>
    if isTerminal s ∧ job2.completedAt = none then
      { job2 with completedAt := some now }
    else job2
  | none => job2

namespace IngestionService

/-- Embedding of `IngestionService.create`. The document is fetched through
`DocumentsService.findOne` (so its NotFound/Forbidden outcomes propagate),
a `processing` document is rejected with BadRequest, the job row is saved
with status `pending`, and only then is the document's status set to
`processing` through `DocumentsService.updateStatus` with the same actor —
a failure there leaves the already-saved job row in the store. `jobId` is
the id the repository generates for the new row. -/
def create (db : Db) (dto : CreateIngestionJobDto) (user : User) (jobId : Nat) :
    Except Err IngestionJob × Db :=
  match DocumentsService.findOne db dto.documentId user with
  | .error e => (.error e, db)
  | .ok document =>
    if document.status = .processing then
      (.error .badRequest, db)
    else
      let job : IngestionJob :=
        { id := jobId
          documentId := dto.documentId
          status := .pending
          errorMessage := none
          result := none
          config := dto.config.getD []
          startedAt := none
          completedAt := none }
      let db1 := saveJobRow db job
      match DocumentsService.updateStatus db1 dto.documentId .processing user with
      | (.error e, db2) => (.error e, db2)
      | (.ok _, db2) => (.ok job, db2)

/-- Embedding of `IngestionService.findOne`: NotFound when the id does not
resolve; a non-admin actor must be the owning document's uploader, else
Forbidden (`internal` marks the null dereference that a dangling
`documentId` would cause on the non-admin path). Read-only. -/
def findOne (db : Db) (id : Nat) (user : User) : Except Err IngestionJob :=
  match findJobRow db id with
  | none => .error .notFound
  | some job =>
    if user.role = .admin then
      .ok job
    else
      match findDocRow db job.documentId with
      | none => .error .internal
      | some document =>
        if document.uploadedById ≠ user.id then .error .forbidden
        else .ok job

/-- Embedding of `IngestionService.update`: fetch through `findOne`, then
admin-only gate, then the dto merge, the guarded `startedAt` write, and —
on a first transition into a terminal status — the `completedAt` write and
the cascade of the document's status (processed on completed, failed on
failed or cancelled) before the job row is saved. -/
def update (db : Db) (id : Nat) (dto : UpdateIngestionJobDto) (user : User)
    (now : Nat) : Except Err IngestionJob × Db :=
  match findOne db id user with
  | .error e => (.error e, db)
  | .ok job0 =>
    if user.role ≠ .admin then
      (.error .forbidden, db)
    else
      let job1 := assignDto job0 dto
      let job2 :=
        if dto.status = some .running ∧ job1.startedAt = none then
          { job1 with startedAt := some now }
        else job1
      match dto.status with
      | some s =>
        if isTerminal s ∧ job2.completedAt = none then
          let job3 := { job2 with completedAt := some now }
          let docStatus :=
            if s = .completed then DocumentStatus.processed else DocumentStatus.failed
          match DocumentsService.updateStatus db job2.documentId docStatus user with
          | (.error e, db2) => (.error e, db2)
          | (.ok _, db2) => (.ok job3, saveJobRow db2 job3)
        else
          (.ok job2, saveJobRow db job2)
      | none => (.ok job2, saveJobRow db job2)

/-- Ownership test used by `cancel`'s second guard
(`job.document.uploadedBy.id !== user.id`). -/
def ownsJobDocument (db : Db) (job : IngestionJob) (uid : Nat) : Bool :=
  match findDocRow db job.documentId with
  | some d => d.uploadedById == uid
  | none => false

/-- Embedding of `IngestionService.cancel`: fetch through `findOne`; a
`completed` or `failed` job is rejected with BadRequest; an actor that is
neither admin nor owner is rejected with Forbidden; otherwise the job is
saved as `cancelled` with `completedAt := now`, and only then is the
document's status reverted to `uploaded` through
`DocumentsService.updateStatus` with the same actor — a failure there
leaves the already-cancelled job row in the store. -/
def cancel (db : Db) (id : Nat) (user : User) (now : Nat) :
    Except Err IngestionJob × Db :=
  match findOne db id user with
  | .error e => (.error e, db)
  | .ok job =>
    if job.status = .completed ∨ job.status = .failed then
      (.error .badRequest, db)
    else if user.role ≠ .admin ∧ ¬ ownsJobDocument db job user.id then
      (.error .forbidden, db)
    else
      let cancelled := { job with status := .cancelled, completedAt := some now }
      let db1 := saveJobRow db cancelled
      match DocumentsService.updateStatus db1 job.documentId .uploaded user with
      | (.error e, db2) => (.error e, db2)
      | (.ok _, db2) => (.ok cancelled, db2)

/-- Embedding of `IngestionService.remove`: the admin gate runs before the
delete, so a non-admin actor is rejected with Forbidden even for an id
that does not exist; NotFound only when the delete affected no row. -/
def remove (db : Db) (id : Nat) (user : User) : Except Err Unit × Db :=
  if user.role ≠ .admin then
    (.error .forbidden, db)
  else
    let remaining := db.ingestionJobs.filter (fun j => !(j.id == id))
    if remaining.length = db.ingestionJobs.length then
      (.error .notFound, db)
    else
      (.ok (), { db with ingestionJobs := remaining })

/-- Embedding of `IngestionService.handleWebhook`: plain row lookup (no
actor), the dto merge, the guarded `startedAt` and `completedAt` writes,
then the job save. No document write occurs on this path. -/
def handleWebhook (db : Db) (jobId : Nat) (dto : UpdateIngestionJobDto)
    (now : Nat) : Except Err IngestionJob × Db :=
  match findJobRow db jobId with
  | none => (.error .notFound, db)
  | some job =>
    let job3 := mergeJobUpdate job dto now
    (.ok job3, saveJobRow db job3)

/-- The canned result payload written by the simulated processor. -/
def cannedResult : ResultPayload :=
  { extractedText := "Sample extracted text from document..."
    summary := "This is a sample summary of the document."
    language := "en"
    wordCount := 150 }

/-- First timer callback of `simulateIngestionProcess`: re-read the row by
id; when it still exists, force-write status `running` and overwrite
`startedAt` with the current instant (no status re-check). Returns the
in-memory job object the second callback closes over. -/
def simStep1 (db : Db) (jobId : Nat) (now : Nat) : Option IngestionJob × Db :=
  match findJobRow db jobId with
  | none => (none, db)
  | some job =>
    let job1 := { job with status := .running, startedAt := some now }
    (some job1, saveJobRow db job1)

/-- Second timer callback of `simulateIngestionProcess`: without re-reading
the store, force-write status `completed`, `completedAt`, and the canned
result onto the job object captured by the first callback, and save it. -/
def simStep2 (db : Db) (captured : IngestionJob) (now : Nat) :
    IngestionJob × Db :=
  let job2 :=
    { captured with
      status := .completed
      completedAt := some now
      result := some cannedResult }
  (job2, saveJobRow db job2)

end IngestionService

namespace UsersService

/-- Embedding of `UsersService.remove` over the users table (a list of user
ids): the admin gate and the self-delete gate run before the delete, so a
non-admin actor gets Forbidden even for an unknown id; NotFound only when
the delete affected no row. -/
def remove (users : List Nat) (id : Nat) (currentUser : User) :
    Except Err Unit × List Nat :=
  if currentUser.role ≠ .admin then
    (.error .forbidden, users)
  else if currentUser.id = id then
    (.error .forbidden, users)
  else
    let remaining := users.filter (fun u => !(u == id))
    if remaining.length = users.length then
      (.error .notFound, users)
    else
      (.ok (), remaining)

end UsersService

deriving instance DecidableEq for Except

theorem saveJobRow_documents (db : Db) (j : IngestionJob) :
    (saveJobRow db j).documents = db.documents := rfl

theorem saveDocRow_ingestionJobs (db : Db) (d : Document) :
    (saveDocRow db d).ingestionJobs = db.ingestionJobs := rfl

theorem findJobRow_saveJobRow_self (db : Db) (j : IngestionJob) :
    findJobRow (saveJobRow db j) j.id = some j :=
  find?_upsertBy_self IngestionJob.id db.ingestionJobs j

theorem findJobRow_saveJobRow_ne (db : Db) (j : IngestionJob) (k : Nat)
    (hk : j.id ≠ k) :
    findJobRow (saveJobRow db j) k = findJobRow db k :=
  find?_upsertBy_ne IngestionJob.id db.ingestionJobs j k hk

theorem findDocRow_saveJobRow (db : Db) (j : IngestionJob) (k : Nat) :
    findDocRow (saveJobRow db j) k = findDocRow db k := rfl

theorem findJobRow_saveDocRow (db : Db) (d : Document) (k : Nat) :
    findJobRow (saveDocRow db d) k = findJobRow db k := rfl

theorem findJobRow_some_id (db : Db) (k : Nat) (j : IngestionJob)
    (h : findJobRow db k = some j) : j.id = k := by
  have := List.find?_some h
  simpa using this

theorem findDocRow_some_id (db : Db) (k : Nat) (d : Document)
    (h : findDocRow db k = some d) : d.id = k := by
  have := List.find?_some h
  simpa using this

theorem assignDto_id (job : IngestionJob) (dto : UpdateIngestionJobDto) :
    (assignDto job dto).id = job.id := rfl

theorem assignDto_documentId (job : IngestionJob) (dto : UpdateIngestionJobDto) :
    (assignDto job dto).documentId = job.documentId := rfl

theorem assignDto_config (job : IngestionJob) (dto : UpdateIngestionJobDto) :
    (assignDto job dto).config = job.config := rfl

theorem assignDto_startedAt (job : IngestionJob) (dto : UpdateIngestionJobDto) :
    (assignDto job dto).startedAt = job.startedAt := rfl

theorem assignDto_completedAt (job : IngestionJob) (dto : UpdateIngestionJobDto) :
    (assignDto job dto).completedAt = job.completedAt := rfl


theorem mergeJobUpdate_id (job : IngestionJob) (dto : UpdateIngestionJobDto)
    (now : Nat) : (mergeJobUpdate job dto now).id = job.id := by
  rcases hs : dto.status with _ | s
  · simp [mergeJobUpdate, hs, assignDto]
  · simp only [mergeJobUpdate, hs, assignDto]
    split <;> split <;> rfl

theorem mergeJobUpdate_documentId (job : IngestionJob)
    (dto : UpdateIngestionJobDto) (now : Nat) :
    (mergeJobUpdate job dto now).documentId = job.documentId := by
  rcases hs : dto.status with _ | s
  · simp [mergeJobUpdate, hs, assignDto]
  · simp only [mergeJobUpdate, hs, assignDto]
    split <;> split <;> rfl

theorem mergeJobUpdate_config (job : IngestionJob)
    (dto : UpdateIngestionJobDto) (now : Nat) :
    (mergeJobUpdate job dto now).config = job.config := by
  rcases hs : dto.status with _ | s
  · simp [mergeJobUpdate, hs, assignDto]
  · simp only [mergeJobUpdate, hs, assignDto]
    split <;> split <;> rfl

theorem mergeJobUpdate_startedAt_of_set (job : IngestionJob)
    (dto : UpdateIngestionJobDto) (now t : Nat) (ht : job.startedAt = some t) :
    (mergeJobUpdate job dto now).startedAt = some t := by
  rcases hs : dto.status with _ | s
  · simp [mergeJobUpdate, hs, assignDto, ht]
  · simp only [mergeJobUpdate, hs, assignDto]
    have hcond : ¬ (some s = some IngestionStatus.running ∧
        (job.startedAt : Option Nat) = none) := by
      rw [ht]
      simp
    rw [if_neg hcond]
    split <;> simp [ht]

theorem ingestionFindOne_ok_eq (db : Db) (id : Nat) (user : User)
    (job j : IngestionJob) (hj : findJobRow db id = some job)
    (h : IngestionService.findOne db id user = .ok j) : j = job := by
  simp only [IngestionService.findOne, hj] at h
  by_cases hr : user.role = .admin
  · rw [if_pos hr] at h
    exact (Except.ok.inj h).symm
  · rw [if_neg hr] at h
    cases hd : findDocRow db job.documentId with
    | none => rw [hd] at h; cases h
    | some d =>
      simp only [hd] at h
      by_cases ho : d.uploadedById ≠ user.id
      · rw [if_pos ho] at h; cases h
      · rw [if_neg ho] at h; exact (Except.ok.inj h).symm

/-- Fixture: a document owned by user 10, freshly uploaded. -/
def sampleDoc : Document := { id := 1, status := .uploaded, uploadedById := 10 }

/-- Fixture: the same document while an ingestion job is in flight. -/
def processingDoc : Document := { sampleDoc with status := .processing }

/-- Fixture: the document's owner, an editor (not an admin). -/
def ownerEditor : User := { id := 10, role := .editor }

/-- Fixture: an admin actor. -/
def adminUser : User := { id := 99, role := .admin }

/-- Fixture: an unrelated non-admin actor. -/
def otherViewer : User := { id := 2, role := .viewer }

/-- Fixture: a pending job for the sample document. -/
def pendingJob : IngestionJob :=
  { id := 5, documentId := 1, status := .pending, errorMessage := none,
    result := none, config := [], startedAt := none, completedAt := none }

/-- Fixture: store with only the uploaded document. -/
def uploadedDb : Db := { documents := [sampleDoc], ingestionJobs := [] }

/-- Fixture: store with the processing document and its pending job. -/
def processingDb : Db := { documents := [processingDoc], ingestionJobs := [pendingJob] }

/-- Fixture: a completed job. -/
def completedJob : IngestionJob :=
  { pendingJob with status := .completed, completedAt := some 4 }

/-- Fixture: store with the processing document and the completed job. -/
def completedDb : Db := { documents := [processingDoc], ingestionJobs := [completedJob] }

/-- Fixture: a cancelled job. -/
def cancelledJob : IngestionJob :=
  { pendingJob with status := .cancelled, completedAt := some 4 }

/-- Fixture: store with the uploaded document and the cancelled job. -/
def cancelledDb : Db := { documents := [sampleDoc], ingestionJobs := [cancelledJob] }

/-- Fixture: a running job whose startedAt is already set. -/
def startedJob : IngestionJob :=
  { pendingJob with status := .running, startedAt := some 5 }

/-- Fixture: store with the processing document and the started job. -/
def startedDb : Db := { documents := [processingDoc], ingestionJobs := [startedJob] }

/-- Claim C1: the claim says job creation succeeds for every actor permitted
to view the document, admin or not. The code refutes the non-admin half:
`create` saves the pending job and then calls
`DocumentsService.updateStatus` with the requesting actor, which rejects
every non-admin, so the owner's create raises Forbidden, the document's
status stays `uploaded`, and the saved pending job is left orphaned. -/
theorem create_by_owner_raises_forbidden_and_orphans_job :
    (IngestionService.create uploadedDb ⟨1, none⟩ ownerEditor 7).1 = .error .forbidden ∧
    (findJobRow (IngestionService.create uploadedDb ⟨1, none⟩ ownerEditor 7).2 7).map
      IngestionJob.status = some .pending ∧
    (findDocRow (IngestionService.create uploadedDb ⟨1, none⟩ ownerEditor 7).2 1).map
      Document.status = some .uploaded ∧
    (IngestionService.create uploadedDb ⟨1, none⟩ adminUser 7).1 =
      .ok { id := 7, documentId := 1, status := .pending, errorMessage := none,
            result := none, config := [], startedAt := none, completedAt := none } ∧
    (findDocRow (IngestionService.create uploadedDb ⟨1, none⟩ adminUser 7).2 1).map
      Document.status = some .processing := by
  decide

/-- Claim C2: the claim says cancel works for the owner as well as for an
admin. The code refutes the owner half: `cancel` saves the job as
`cancelled` and then calls `DocumentsService.updateStatus` with the
requesting actor, which rejects every non-admin, so the owner's cancel
raises Forbidden and the document's status is never reverted to
`uploaded` (the admin path completes in full). -/
theorem cancel_by_owner_raises_forbidden_and_skips_document_revert :
    (IngestionService.cancel processingDb 5 ownerEditor 42).1 = .error .forbidden ∧
    (findJobRow (IngestionService.cancel processingDb 5 ownerEditor 42).2 5).map
      IngestionJob.status = some .cancelled ∧
    (findDocRow (IngestionService.cancel processingDb 5 ownerEditor 42).2 1).map
      Document.status = some .processing ∧
    (IngestionService.cancel processingDb 5 adminUser 42).1 =
      .ok { pendingJob with status := .cancelled, completedAt := some 42 } ∧
    (findDocRow (IngestionService.cancel processingDb 5 adminUser 42).2 1).map
      Document.status = some .uploaded := by
  decide

/-- Claim C5: the claim says each simulated callback re-checks the job's
status and no-ops when the job is already terminal. The code's first
callback checks only that the row still exists and force-writes `running`,
and the second never re-reads at all, so a job cancelled before the timers
fire is moved to `running` and then `completed`. -/
theorem simulated_step_resurrects_cancelled_job :
    (findJobRow cancelledDb 5).map IngestionJob.status = some .cancelled ∧
    ((IngestionService.simStep1 cancelledDb 5 9).1).map IngestionJob.status =
      some .running ∧
    (findJobRow (IngestionService.simStep1 cancelledDb 5 9).2 5).map
      IngestionJob.status = some .running ∧
    (findJobRow (IngestionService.simStep2 (IngestionService.simStep1 cancelledDb 5 9).2
        ((IngestionService.simStep1 cancelledDb 5 9).1.getD pendingJob) 12).2 5).map
      IngestionJob.status = some .completed := by
  decide

/-- Fixture: outcome of the first simulated callback on the pending job. -/
def simStep1Result : Option IngestionJob × Db := IngestionService.simStep1 processingDb 5 3

/-- Fixture: the in-memory job captured by the first simulated callback. -/
def simCaptured : IngestionJob := { pendingJob with status := .running, startedAt := some 3 }

/-- Fixture: store after both simulated callbacks have fired. -/
def simFinalDb : Db := (IngestionService.simStep2 simStep1Result.2 simCaptured 8).2

/-- Claim C3 (counterexample): after both simulated callbacks the job is
`completed` with the canned result, but the owning document's status is
still `processing`, not `processed` as the claim states — the simulated
processor never writes the document. -/
theorem simulated_completion_leaves_document_processing_cex :
    simStep1Result.1 = some simCaptured ∧
    (findJobRow simFinalDb 5).map IngestionJob.status = some .completed ∧
    (findJobRow simFinalDb 5).map IngestionJob.result =
      some (some IngestionService.cannedResult) ∧
    (findDocRow simFinalDb 1).map Document.status = some .processing ∧
    DocumentStatus.processing ≠ DocumentStatus.processed := by
  decide

/-- Claim C4 (counterexample): a webhook payload with status `running`
moves a `completed` job back to `running` — the webhook path has no
terminal-state guard, so a terminal job's status does change. -/
theorem webhook_moves_completed_job_to_running_cex :
    (findJobRow completedDb 5).map IngestionJob.status = some .completed ∧
    (findJobRow (IngestionService.handleWebhook completedDb 5
        ⟨some .running, none, none⟩ 9).2 5).map IngestionJob.status = some .running ∧
    IngestionStatus.running ≠ IngestionStatus.completed := by
  decide

/-- Claim C6 (counterexample): the first simulated callback overwrites a
previously set `startedAt` (5 becomes 9) when it force-enters `running`,
so `startedAt` is not write-once across all paths. -/
theorem simulated_step_overwrites_startedAt_cex :
    (findJobRow startedDb 5).map IngestionJob.startedAt = some (some 5) ∧
    ((IngestionService.simStep1 startedDb 5 9).1).map IngestionJob.startedAt =
      some (some 9) ∧
    (findJobRow (IngestionService.simStep1 startedDb 5 9).2 5).map
      IngestionJob.startedAt = some (some 9) ∧
    (9 : Nat) ≠ 5 := by
  decide

/-- Claim C7 (counterexample): for an actor who is neither admin nor the
owner, creating a job for a `processing` document raises Forbidden (from
the document fetch), not BadRequest — the claim's "regardless of which
actor" fails. -/
theorem create_on_processing_document_not_always_badRequest_cex :
    (findDocRow processingDb 1).map Document.status = some .processing ∧
    (IngestionService.create processingDb ⟨1, none⟩ otherViewer 7).1 =
      .error .forbidden ∧
    Err.forbidden ≠ Err.badRequest := by
  decide

/-- Claim C9 (counterexample): for deleting an ingestion job or a user, the
role gate runs before the existence check, so a non-admin actor with an
unknown id receives Forbidden, not the NotFound the claim states. -/
theorem remove_unknown_id_nonadmin_forbidden_cex :
    findJobRow uploadedDb 123 = none ∧
    (IngestionService.remove uploadedDb 123 otherViewer).1 = .error .forbidden ∧
    (UsersService.remove [10, 99] 123 otherViewer).1 = .error .forbidden ∧
    Err.forbidden ≠ Err.notFound := by
  decide

/-- Claim C4 (amended): only the cancel path guards terminal states, and
only against `completed`/`failed`: cancelling such a job is rejected with
BadRequest and the store is unchanged. The other paths (admin update,
webhook, simulated callbacks) carry no terminal-state guard and can move a
terminal job's status, as the counterexample shows. -/
theorem cancel_rejected_on_completed_or_failed_job (db : Db) (id : Nat)
    (user : User) (now : Nat) (job : IngestionJob)
    (hfo : IngestionService.findOne db id user = .ok job)
    (hterm : job.status = .completed ∨ job.status = .failed) :
    IngestionService.cancel db id user now = (.error .badRequest, db) := by
  simp only [IngestionService.cancel, hfo]
  rw [if_pos hterm]

theorem cancel_rejected_on_completed_or_failed_job_witness :
    IngestionService.cancel completedDb 5 adminUser 42 = (.error .badRequest, completedDb) :=
  cancel_rejected_on_completed_or_failed_job completedDb 5 adminUser 42 completedJob
    (by decide) (Or.inl (by decide))

/-- Claim C7 (amended): for every actor permitted to view the document
(admin or its owner), creating a job for a document whose status is
`processing` raises BadRequest and leaves the store unchanged; an actor
who cannot view the document receives Forbidden instead, as the
counterexample shows. -/
theorem create_on_processing_document_badRequest_for_permitted_actor
    (db : Db) (dto : CreateIngestionJobDto) (user : User) (jid : Nat)
    (d : Document) (hd : findDocRow db dto.documentId = some d)
    (hstat : d.status = .processing)
    (hperm : user.role = .admin ∨ d.uploadedById = user.id) :
    IngestionService.create db dto user jid = (.error .badRequest, db) := by
  have hfo : DocumentsService.findOne db dto.documentId user = .ok d := by
    simp only [DocumentsService.findOne, hd]
    have hcond : ¬ (user.role ≠ .admin ∧ d.uploadedById ≠ user.id) := by
      rcases hperm with h | h
      · intro hc
        exact hc.1 h
      · intro hc
        exact hc.2 h
    rw [if_neg hcond]
  simp only [IngestionService.create, hfo]
  rw [if_pos hstat]

theorem create_on_processing_document_badRequest_witness :
    IngestionService.create processingDb ⟨1, none⟩ ownerEditor 7 =
      (.error .badRequest, processingDb) :=
  create_on_processing_document_badRequest_for_permitted_actor processingDb ⟨1, none⟩
    ownerEditor 7 processingDoc (by decide) (by decide) (Or.inr (by decide))

/-- Claim C9 (amended): for the read operations (document fetch, job
fetch) existence is checked before ownership, so an unknown id yields
NotFound even for an actor who would be denied; for the admin-only deletes
(ingestion job, user) the role gate runs first, so a non-admin actor gets
Forbidden whatever the id. -/
theorem reads_check_existence_first_removes_check_role_first
    (db : Db) (users : List Nat) (user : User) (idD idJ idR idU : Nat)
    (hD : findDocRow db idD = none) (hJ : findJobRow db idJ = none)
    (hrole : user.role ≠ .admin) :
    DocumentsService.findOne db idD user = .error .notFound ∧
    IngestionService.findOne db idJ user = .error .notFound ∧
    (IngestionService.remove db idR user).1 = .error .forbidden ∧
    (UsersService.remove users idU user).1 = .error .forbidden := by
  refine ⟨?_, ?_, ?_, ?_⟩
  · simp only [DocumentsService.findOne, hD]
  · simp only [IngestionService.findOne, hJ]
  · simp only [IngestionService.remove]
    rw [if_pos hrole]
  · simp only [UsersService.remove]
    rw [if_pos hrole]

theorem reads_check_existence_first_witness :
    DocumentsService.findOne uploadedDb 123 otherViewer = .error .notFound ∧
    IngestionService.findOne uploadedDb 123 otherViewer = .error .notFound ∧
    (IngestionService.remove uploadedDb 123 otherViewer).1 = .error .forbidden ∧
    (UsersService.remove [10, 99] 123 otherViewer).1 = .error .forbidden :=
  reads_check_existence_first_removes_check_role_first uploadedDb [10, 99] otherViewer
    123 123 123 123 (by decide) (by decide) (by decide)

/-- Claim C8: for an existing document, `DocumentsService.findOne` succeeds
(returning it) exactly when the actor is admin or the uploader, and raises
Forbidden otherwise; the same admin-or-owner rule governs reading a single
ingestion job through its document's owner via `IngestionService.findOne`. -/
theorem findOne_admin_or_owner_iff (db : Db) (user : User) (did jid : Nat)
    (d dj : Document) (j : IngestionJob)
    (hd : findDocRow db did = some d)
    (hj : findJobRow db jid = some j)
    (hdj : findDocRow db j.documentId = some dj) :
    (DocumentsService.findOne db did user = .ok d ↔
      (user.role = .admin ∨ d.uploadedById = user.id)) ∧
    (¬ (user.role = .admin ∨ d.uploadedById = user.id) →
      DocumentsService.findOne db did user = .error .forbidden) ∧
    (IngestionService.findOne db jid user = .ok j ↔
      (user.role = .admin ∨ dj.uploadedById = user.id)) ∧
    (¬ (user.role = .admin ∨ dj.uploadedById = user.id) →
      IngestionService.findOne db jid user = .error .forbidden) := by
  have hdoc : DocumentsService.findOne db did user =
      (if user.role ≠ .admin ∧ d.uploadedById ≠ user.id then .error .forbidden
       else .ok d) := by
    simp only [DocumentsService.findOne, hd]
  have hjob : IngestionService.findOne db jid user =
      (if user.role = .admin then .ok j
       else if dj.uploadedById ≠ user.id then .error .forbidden else .ok j) := by
    simp only [IngestionService.findOne, hj]
    by_cases hr : user.role = .admin
    · rw [if_pos hr, if_pos hr]
    · rw [if_neg hr, if_neg hr]
      simp only [hdj]
  refine ⟨?_, ?_, ?_, ?_⟩
  · rw [hdoc]
    by_cases hcond : user.role ≠ .admin ∧ d.uploadedById ≠ user.id
    · rw [if_pos hcond]
      constructor
      · intro h
        cases h
      · intro h
        exact absurd h (by tauto)
    · rw [if_neg hcond]
      constructor
      · intro _
        tauto
      · intro _
        rfl
  · intro hnot
    rw [hdoc, if_pos (by tauto)]
  · rw [hjob]
    by_cases hr : user.role = .admin
    · rw [if_pos hr]
      constructor
      · intro _
        exact Or.inl hr
      · intro _
        rfl
    · rw [if_neg hr]
      by_cases ho : dj.uploadedById ≠ user.id
      · rw [if_pos ho]
        constructor
        · intro h
          cases h
        · intro h
          rcases h with h | h
          · exact absurd h hr
          · exact absurd h ho
      · rw [if_neg ho]
        constructor
        · intro _
          exact Or.inr (of_not_not ho)
        · intro _
          rfl
  · intro hnot
    rw [hjob, if_neg (by tauto), if_pos (by tauto)]

theorem findOne_admin_or_owner_iff_witness :
    (DocumentsService.findOne processingDb 1 otherViewer = .ok processingDoc ↔
      (otherViewer.role = .admin ∨ processingDoc.uploadedById = otherViewer.id)) ∧
    (¬ (otherViewer.role = .admin ∨ processingDoc.uploadedById = otherViewer.id) →
      DocumentsService.findOne processingDb 1 otherViewer = .error .forbidden) ∧
    (IngestionService.findOne processingDb 5 otherViewer = .ok pendingJob ↔
      (otherViewer.role = .admin ∨ processingDoc.uploadedById = otherViewer.id)) ∧
    (¬ (otherViewer.role = .admin ∨ processingDoc.uploadedById = otherViewer.id) →
      IngestionService.findOne processingDb 5 otherViewer = .error .forbidden) :=
  findOne_admin_or_owner_iff processingDb otherViewer 1 5 processingDoc processingDoc
    pendingJob (by decide) (by decide) (by decide)

theorem findJobRow_saveJobRow_eq (db : Db) (j : IngestionJob) (k : Nat)
    (hk : j.id = k) : findJobRow (saveJobRow db j) k = some j := by
  subst hk
  exact findJobRow_saveJobRow_self db j

/-- Claim C3 (amended): for every job left undisturbed, the simulated
processor's two delayed steps advance it to `running` (stamping
`startedAt`) and then to `completed` with the canned result payload and
`completedAt` stamped; the documents table is untouched by both steps, so
the owning document's status does not become `processed` (the
counterexample exhibits this at a concrete store). -/
theorem simulated_steps_drive_job_but_not_document (db : Db)
    (jobId now1 now2 : Nat) (job : IngestionJob)
    (hj : findJobRow db jobId = some job) :
    ((IngestionService.simStep1 db jobId now1).1.map IngestionJob.status =
      some .running) ∧
    ((IngestionService.simStep1 db jobId now1).1.map IngestionJob.startedAt =
      some (some now1)) ∧
    ((IngestionService.simStep1 db jobId now1).2.documents = db.documents) ∧
    (∀ j1, (IngestionService.simStep1 db jobId now1).1 = some j1 →
      (findJobRow (IngestionService.simStep2
          (IngestionService.simStep1 db jobId now1).2 j1 now2).2 jobId).map
        IngestionJob.status = some .completed ∧
      (findJobRow (IngestionService.simStep2
          (IngestionService.simStep1 db jobId now1).2 j1 now2).2 jobId).map
        IngestionJob.result = some (some IngestionService.cannedResult) ∧
      (findJobRow (IngestionService.simStep2
          (IngestionService.simStep1 db jobId now1).2 j1 now2).2 jobId).map
        IngestionJob.completedAt = some (some now2) ∧
      (IngestionService.simStep2
          (IngestionService.simStep1 db jobId now1).2 j1 now2).2.documents =
        db.documents) := by
  have hid : job.id = jobId := findJobRow_some_id db jobId job hj
  have hstep : IngestionService.simStep1 db jobId now1 =
      (some { job with status := .running, startedAt := some now1 },
       saveJobRow db { job with status := .running, startedAt := some now1 }) := by
    simp only [IngestionService.simStep1, hj]
  simp only [hstep]
  refine ⟨rfl, rfl, rfl, ?_⟩
  intro j1 h1
  have hj1 : j1 = { job with status := .running, startedAt := some now1 } :=
    (Option.some.inj h1).symm
  subst hj1
  simp only [IngestionService.simStep2]
  rw [findJobRow_saveJobRow_eq _ _ jobId (by simp [hid])]
  exact ⟨rfl, rfl, rfl, rfl⟩

/-- Claim C10: `handleWebhook` modifies only the targeted job row: the
documents table is returned unchanged (no document-status cascade, unlike
the admin-update path), every other job row is unchanged, and the
job's identity fields (id, documentId, config) are preserved. -/
theorem webhook_touches_only_target_job (db : Db) (jobId : Nat)
    (dto : UpdateIngestionJobDto) (now : Nat) :
    (IngestionService.handleWebhook db jobId dto now).2.documents = db.documents ∧
    (∀ k, k ≠ jobId →
      findJobRow (IngestionService.handleWebhook db jobId dto now).2 k =
        findJobRow db k) ∧
    (∀ j, (IngestionService.handleWebhook db jobId dto now).1 = .ok j →
      (findJobRow db jobId).map IngestionJob.id = some j.id ∧
      (findJobRow db jobId).map IngestionJob.documentId = some j.documentId ∧
      (findJobRow db jobId).map IngestionJob.config = some j.config) := by
  cases hfind : findJobRow db jobId with
  | none =>
    simp [IngestionService.handleWebhook, hfind]
  | some job =>
    have hid : job.id = jobId := findJobRow_some_id db jobId job hfind
    simp only [IngestionService.handleWebhook, hfind]
    refine ⟨rfl, ?_, ?_⟩
    · intro k hk
      exact findJobRow_saveJobRow_ne db _ k
        (by rw [mergeJobUpdate_id, hid]; exact Ne.symm hk)
    · intro j h
      have hjm : j = mergeJobUpdate job dto now := (Except.ok.inj h).symm
      subst hjm
      refine ⟨?_, ?_, ?_⟩
      · rw [mergeJobUpdate_id]
        rfl
      · rw [mergeJobUpdate_documentId]
        rfl
      · rw [mergeJobUpdate_config]
        rfl

/-- Claim C6 (amended): the admin-update and webhook paths never
overwrite a previously set `startedAt` when a payload re-enters `running`
(the `!job.startedAt` guard); the simulated processor's first callback has
no such guard and overwrites `startedAt` unconditionally, as the
counterexample shows. -/
theorem update_and_webhook_preserve_startedAt (db : Db) (id : Nat)
    (dto : UpdateIngestionJobDto) (user : User) (now t : Nat)
    (job : IngestionJob) (hj : findJobRow db id = some job)
    (ht : job.startedAt = some t) :
    (∀ j db2, IngestionService.handleWebhook db id dto now = (.ok j, db2) →
      j.startedAt = some t) ∧
    (∀ j db2, IngestionService.update db id dto user now = (.ok j, db2) →
      j.startedAt = some t) := by
  constructor
  · intro j db2 h
    simp only [IngestionService.handleWebhook, hj] at h
    have hjm : mergeJobUpdate job dto now = j := by
      have := congrArg Prod.fst h
      simpa using this
    rw [← hjm]
    exact mergeJobUpdate_startedAt_of_set job dto now t ht
  · intro j db2 h
    cases hfo : IngestionService.findOne db id user with
    | error e =>
      simp only [IngestionService.update, hfo] at h
      simp at h
    | ok job0 =>
      have hj0 : job0 = job := ingestionFindOne_ok_eq db id user job job0 hj hfo
      simp only [IngestionService.update, hfo, hj0] at h
      by_cases hr : user.role ≠ .admin
      · rw [if_pos hr] at h
        simp at h
      · rw [if_neg hr] at h
        rcases hs : dto.status with _ | s
        · simp only [hs] at h
          rw [if_neg (show ¬ ((none : Option IngestionStatus) =
              some IngestionStatus.running ∧
              (assignDto job dto).startedAt = none) by simp)] at h
          have hjm : assignDto job dto = j := by
            have := congrArg Prod.fst h
            simpa using this
          rw [← hjm, assignDto_startedAt]
          exact ht
        · simp only [hs] at h
          have hcond : ¬ ((some s : Option IngestionStatus) =
              some IngestionStatus.running ∧
              (assignDto job dto).startedAt = none) := by
            rw [assignDto_startedAt, ht]
            simp
          rw [if_neg hcond] at h
          by_cases hterm : isTerminal s = true ∧ (assignDto job dto).completedAt = none
          · rw [if_pos hterm] at h
            cases hus : DocumentsService.updateStatus db
                (assignDto job dto).documentId
                (if s = IngestionStatus.completed then DocumentStatus.processed
                 else DocumentStatus.failed) user with
            | mk res dbx =>
              rw [hus] at h
              cases res with
              | error e => simp at h
              | ok d =>
                have hjm : { assignDto job dto with completedAt := some now } = j := by
                  have := congrArg Prod.fst h
                  simpa using this
                rw [← hjm]
                show (assignDto job dto).startedAt = some t
                rw [assignDto_startedAt]
                exact ht
          · rw [if_neg hterm] at h
            have hjm : assignDto job dto = j := by
              have := congrArg Prod.fst h
              simpa using this
            rw [← hjm, assignDto_startedAt]
            exact ht

theorem simulated_steps_drive_job_but_not_document_witness :
    (findJobRow (IngestionService.simStep2
        (IngestionService.simStep1 processingDb 5 3).2 simCaptured 8).2 5).map
      IngestionJob.status = some .completed ∧
    (findJobRow (IngestionService.simStep2
        (IngestionService.simStep1 processingDb 5 3).2 simCaptured 8).2 5).map
      IngestionJob.result = some (some IngestionService.cannedResult) ∧
    (findJobRow (IngestionService.simStep2
        (IngestionService.simStep1 processingDb 5 3).2 simCaptured 8).2 5).map
      IngestionJob.completedAt = some (some 8) ∧
    (IngestionService.simStep2
        (IngestionService.simStep1 processingDb 5 3).2 simCaptured 8).2.documents =
      processingDb.documents :=
  (simulated_steps_drive_job_but_not_document processingDb 5 3 8 pendingJob
    (by decide)).2.2.2 simCaptured (by decide)

theorem update_and_webhook_preserve_startedAt_witness :
    (IngestionService.handleWebhook startedDb 5 ⟨some .running, none, none⟩ 9).1 =
      .ok startedJob ∧
    startedJob.startedAt = some 5 :=
  ⟨by decide,
   (update_and_webhook_preserve_startedAt startedDb 5 ⟨some .running, none, none⟩
      adminUser 9 5 startedJob (by decide) (by decide)).1
     startedJob (saveJobRow startedDb startedJob) (by decide)⟩
